import Mathlib

/-!
Shallow embedding of `src/extensions/petworld/model.ts` (mol* PetWorld extension).

The file under verification builds, for a requested model index of a trajectory,
a replicated structure by applying the operator group of the matched assembly to
every structural unit of the base structure.  External collaborators of that file
(`Structure.Builder`, `Structure.ofModel`, `getMatrices`, `operatorGroupsProvider`,
the column/table layer) live outside the provided sources; they are either
modelled from the specification (clearly marked) or kept as parameters so that
the theorems hold for every behaviour of the external code.

JS semantics captured here:
  * `array[i]` past the end yields `undefined`; a subsequent property access on
    it throws a `TypeError` — modelled by `BuildError.typeError`.
  * `throw new Error(...)` for a missing assembly — `BuildError.assemblyNotFound`.
  * an early `return;` (no usable model) — `Except.ok none`.
-/

/-- One row of the `pdbx_struct_assembly` table (columns `id`, `details`). -/
structure StructAssemblyRow where
  id : String
  details : String
deriving DecidableEq, Repr, Inhabited

/-- One row of the `pdbx_struct_assembly_gen` table
(columns `assembly_id`, `oper_expression`, `asym_id_list`). -/
structure StructAssemblyGenRow where
  assembly_id : String
  oper_expression : String
  asym_id_list : List String
deriving DecidableEq, Repr, Inhabited

/-- The `Generator` record built per matching generator row
(`{ assemblyId, expression, asymIds }` in the source). -/
structure Generator where
  assemblyId : String
  expression : String
  asymIds : List String
deriving DecidableEq, Repr, Inhabited

/-- An operator group: an ordered list of (composed) operators, `O` being the
operator type produced by the external `operatorGroupsProvider`. -/
structure OperatorGroup (O : Type) where
  operators : List O
deriving DecidableEq, Repr, Inhabited

/-- The `Assembly` record (`mol-model/structure/model/properties/symmetry`):
id, details, and the per-model-index list of operator groups. -/
structure Assembly (O : Type) where
  id : String
  details : String
  operatorGroups : List (OperatorGroup O)
deriving DecidableEq, Repr, Inhabited

/-- `ModelsAssembly = { assembly, modelNums }` from the source. -/
structure ModelsAssembly (O : Type) where
  assembly : Assembly O
  modelNums : List Int
deriving DecidableEq, Repr, Inhabited

/-- `model.entities.data`: the `pdbx_description` column (a JS array indexed by
entity index, written through `__array`, hence modelled as a total function on
`Int` — the source writes `__array[idx]` without a bounds check) together with
all remaining columns of the entity table, kept abstract as `C`. -/
structure EntitiesData (C : Type) where
  pdbx_description : Int → List String
  other : C

/-- `model.entities`: the data plus `getEntityIndex` (which in the source may
return `-1` for an unknown id, hence `Int`). -/
structure Entities (C : Type) where
  data : EntitiesData C
  getEntityIndex : String → Int

/-- The mmCIF-format payload of a model's source data: the database tables and
the raw cif fields read by `buildModelsAssembly`.  `OpL` is the (opaque)
`pdbx_struct_oper_list` table consumed only by the external `getMatrices`. -/
structure MmcifData (OpL : Type) where
  pdbx_struct_assembly : List StructAssemblyRow
  pdbx_struct_assembly_gen : List StructAssemblyGenRow
  pdbx_struct_oper_list : OpL
  pdbx_model_name : Nat → String
  PDB_model_num : Nat → Int

/-- `model.sourceData`: either mmCIF data (then `MmcifFormat.is` holds) or some
other format kind. -/
inductive SourceData (D : Type) where
  | mmcif (data : D)
  | other (kind : String)
deriving DecidableEq, Repr

/-- A resolved model (one trajectory frame): the fields read or written by
`buildModelsAssembly`.  `U` is the structural-unit type, `A` the rest of the
atomic hierarchy (untouched by this code). -/
structure Model (U OpL C A : Type) where
  label : String
  entities : Entities C
  chainEntityIds : List String
  hierarchyRest : A
  units : List U
  sourceData : SourceData (MmcifData OpL)

/-- A trajectory: the per-frame accessor plus the hidden
`__modelsAssemblies` cache field used by the source. -/
structure Trajectory (U O OpL C A : Type) where
  getFrameAtIndex : Nat → Model U OpL C A
  modelsAssembliesCache : Option (List (ModelsAssembly O))

/-- The base structure: a list of units.  In the assembled structure each unit
is paired with the operator it was duplicated under. -/
structure Structure (V : Type) where
  units : List V
deriving DecidableEq, Repr

/-- Errors the build can raise: the explicit
`throw new Error("Models Assembly '...' is not defined.")`, and the implicit JS
`TypeError` from reading `.operators` of `undefined` when
`assembly.operatorGroups[modelIndex]` is out of range. -/
inductive BuildError where
  | assemblyNotFound (name : String)
  | typeError
deriving DecidableEq, Repr

/-- Modelled from the spec: `Structure.ofModel` (external, `mol-model/structure`)
builds the base, un-replicated structure from the model's atomic data; its units
are the model's structural units. -/
def StructureOfModel {U OpL C A : Type} (m : Model U OpL C A) : Structure U :=
  { units := m.units }

/-- Modelled from the spec: the structure assembler (external
`Structure.Builder`): each `addWithOperator(unit, oper)` call appends one
duplicated unit instance transformed by `oper`; the source iterates operators
outermost, units innermost. -/
def assembleUnits {U O : Type} (opers : List O) (units : List U) : List (U × O) :=
  opers.flatMap (fun oper => units.map (fun u => (u, oper)))

/-- `createModelsAssembly` (source lines 125–146): reads `id`/`details` at `index`
of the assembly table, then scans the generator table in row order, collecting a
`Generator` and the row's `PDB_model_num` for every row whose `assembly_id`
equals `id`, and finally builds the `Assembly` through the external
`operatorGroupsProvider` (parameter `provider`, already partially applied to the
matrices in the caller's style is avoided: matrices are passed along). -/
def createModelsAssembly {O M : Type}
    (provider : List Generator → M → List (OperatorGroup O))
    (assemblyTab : List StructAssemblyRow) (genTab : List StructAssemblyGenRow)
    (index : Nat) (matrices : M) (modelNum : Nat → Int) : ModelsAssembly O :=
  let id := (assemblyTab.getD index default).id
  let details := (assemblyTab.getD index default).details
  let acc := genTab.enum.foldl
    (fun (acc : List Generator × List Int) p =>
      if p.2.assembly_id == id then
        (acc.1 ++ [{ assemblyId := id, expression := p.2.oper_expression,
                     asymIds := p.2.asym_id_list }],
         acc.2 ++ [modelNum p.1])
      else acc)
    ([], [])
  { assembly := { id := id, details := details, operatorGroups := provider acc.1 matrices },
    modelNums := acc.2 }

/-- `createModelsAssemblies` (source lines 111–120): empty assembly table gives
`[]`; otherwise one `ModelsAssembly` per assembly-table row, in row order, with
the matrices computed once by the external `getMatrices` (parameter). -/
def createModelsAssemblies {O M OpL : Type}
    (getMatrices : OpL → M)
    (provider : List Generator → M → List (OperatorGroup O))
    (assemblyTab : List StructAssemblyRow) (genTab : List StructAssemblyGenRow)
    (operList : OpL) (modelNum : Nat → Int) : List (ModelsAssembly O) :=
  if assemblyTab.length = 0 then []
  else
    let matrices := getMatrices operList
    (List.range assemblyTab.length).map
      (fun i => createModelsAssembly provider assemblyTab genTab i matrices modelNum)

/-- The entity-description patch (source lines 64–75): set the model's label and,
for every chain's `label_entity_id`, overwrite `pdbx_description` at
`getEntityIndex` of that id with the one-element array `[label]`. -/
def patchModel {U OpL C A : Type} (m : Model U OpL C A) (label : String) :
    Model U OpL C A :=
  let desc := m.chainEntityIds.foldl
    (fun d eid => Function.update d (m.entities.getEntityIndex eid) [label])
    m.entities.data.pdbx_description
  { m with
    label := label,
    entities := { m.entities with
      data := { m.entities.data with pdbx_description := desc } } }

/-- The cache step of `buildModelsAssembly` (source lines 77–81): return the
cached `__modelsAssemblies` if present, otherwise build them from the resolved
model's tables. -/
def resolvedAssemblies {U O M OpL C A : Type}
    (getMatrices : OpL → M)
    (provider : List Generator → M → List (OperatorGroup O))
    (t : Trajectory U O OpL C A) (d : MmcifData OpL) : List (ModelsAssembly O) :=
  match t.modelsAssembliesCache with
  | some c => c
  | none => createModelsAssemblies getMatrices provider
      d.pdbx_struct_assembly d.pdbx_struct_assembly_gen
      d.pdbx_struct_oper_list d.PDB_model_num

/-- JS `String.prototype.toLowerCase`, modelled character-wise (sufficient for
the ASCII assembly ids this code compares): lowercase every character. -/
def String.toLowerCase (s : String) : String := ⟨s.data.map Char.toLower⟩

/-- `buildModelsAssembly` (source lines 55–101).  Returns the result together
with the possibly-updated trajectory (its cache field).  `Except.ok none` is the
early `return;` for non-mmCIF source data. -/
def buildModelsAssembly {U O M OpL C A : Type}
    (getMatrices : OpL → M)
    (provider : List Generator → M → List (OperatorGroup O))
    (t : Trajectory U O OpL C A) (asmName : String) (modelIndex : Nat) :
    Except BuildError (Option (Structure (U × O))) × Trajectory U O OpL C A :=
  let model := t.getFrameAtIndex modelIndex
  match model.sourceData with
  | .other _ => (.ok none, t)
  | .mmcif d =>
      let label := d.pdbx_model_name modelIndex
      let model' := patchModel model label
      let assemblies := resolvedAssemblies getMatrices provider t d
      let t' := { t with modelsAssembliesCache := some assemblies }
      match assemblies.find? (fun ma => ma.assembly.id.toLowerCase == asmName) with
      | none => (.error (.assemblyNotFound asmName), t')
      | some ma =>
          match ma.assembly.operatorGroups[modelIndex]? with
          | none => (.error .typeError, t')
          | some g =>
              (.ok (some { units := assembleUnits g.operators (StructureOfModel model').units }), t')

/-- Result of the `StructureFromPetworld` state transform's `apply`: a null
state object when the build yields no structure, otherwise the structure. -/
inductive ApplyResult (V : Type) where
  | nullObject
  | structureObject (s : Structure V)
deriving DecidableEq, Repr

/-- `StructureFromPetworld.apply` (source lines 41–49): runs
`buildModelsAssembly(a.data, '1', params.modelIndex)` and wraps the outcome. -/
def StructureFromPetworld_apply {U O M OpL C A : Type}
    (getMatrices : OpL → M)
    (provider : List Generator → M → List (OperatorGroup O))
    (t : Trajectory U O OpL C A) (modelIndex : Nat) :
    Except BuildError (ApplyResult (U × O)) × Trajectory U O OpL C A :=
  match buildModelsAssembly getMatrices provider t "1" modelIndex with
  | (.ok none, t') => (.ok .nullObject, t')
  | (.ok (some s), t') => (.ok (.structureObject s), t')
  | (.error e, t') => (.error e, t')

/-! ## Concrete instances

Closed instantiations of the parameters (external collaborators) and small
concrete tables, models and trajectories, used to evaluate the development on
explicit inputs. -/

def exGetMatrices : Unit → Unit := fun _ => ()

def exProvider : List Generator → Unit → List (OperatorGroup Nat) :=
  fun _ _ => [{ operators := [5, 6] }]

def exMmcifData : MmcifData Unit :=
  { pdbx_struct_assembly := [{ id := "1", details := "complete assembly" }]
    pdbx_struct_assembly_gen :=
      [{ assembly_id := "1", oper_expression := "1", asym_id_list := ["A"] },
       { assembly_id := "1", oper_expression := "2,3", asym_id_list := ["B"] }]
    pdbx_struct_oper_list := ()
    pdbx_model_name := fun _ => "ModelName"
    PDB_model_num := fun i => (i : Int) + 10 }

def exEntities : Entities Unit :=
  { data := { pdbx_description := fun _ => ["old"], other := () }
    getEntityIndex := fun s => if s = "E1" then 0 else if s = "E2" then 1 else -1 }

def exModel : Model Nat Unit Unit Unit :=
  { label := ""
    entities := exEntities
    chainEntityIds := ["E1"]
    hierarchyRest := ()
    units := [100, 200, 300]
    sourceData := .mmcif exMmcifData }

def exModelOther : Model Nat Unit Unit Unit :=
  { exModel with sourceData := .other "pdb" }

def exAsm (id : String) (groups : List (OperatorGroup Nat)) : ModelsAssembly Nat :=
  { assembly := { id := id, details := "", operatorGroups := groups }, modelNums := [] }

def exTraj (cache : Option (List (ModelsAssembly Nat))) : Trajectory Nat Nat Unit Unit Unit :=
  { getFrameAtIndex := fun _ => exModel, modelsAssembliesCache := cache }

def exTrajOther : Trajectory Nat Nat Unit Unit Unit :=
  { getFrameAtIndex := fun _ => exModelOther, modelsAssembliesCache := none }

/-! ## Helper lemmas -/

theorem range_map_getD {α : Type} (l : List α) (d : α) :
    (List.range l.length).map (fun i => l.getD i d) = l := by
  induction l with
  | nil => rfl
  | cons a l ih =>
      simp only [List.length_cons, List.range_succ_eq_map, List.map_cons, List.map_map,
        List.getD_cons_zero, List.cons.injEq, true_and]
      simpa [Function.comp_def, Nat.succ_eq_add_one, List.getD_cons_succ] using ih

theorem foldl_append_pair {α β γ : Type} (p : α → Bool) (f : α → β) (g : α → γ) :
    ∀ (l : List α) (b0 : List β) (c0 : List γ),
      l.foldl (fun acc x => if p x then (acc.1 ++ [f x], acc.2 ++ [g x]) else acc) (b0, c0)
        = (b0 ++ (l.filter p).map f, c0 ++ (l.filter p).map g) := by
  intro l
  induction l with
  | nil => intro b0 c0; simp
  | cons a l ih =>
      intro b0 c0
      by_cases h : p a
      · simp only [List.foldl_cons, h, if_pos, List.filter_cons, List.map_cons]
        rw [ih]
        simp [h]
      · simp only [List.foldl_cons, h, if_neg, List.filter_cons, List.map_cons]
        rw [ih]
        simp [h]

theorem length_filter_enumFrom {α : Type} (q : α → Bool) :
    ∀ (l : List α) (n : Nat),
      ((List.enumFrom n l).filter (fun p => q p.2)).length = l.countP q := by
  intro l
  induction l with
  | nil => intro n; rfl
  | cons a l ih =>
      intro n
      by_cases h : q a
      · simp [List.enumFrom, List.filter_cons, h, ih, List.countP_cons]
      · simp [List.enumFrom, List.filter_cons, h, ih, List.countP_cons]

theorem length_filter_enum {α : Type} (q : α → Bool) (l : List α) :
    ((l.enum.filter (fun p => q p.2)).length) = l.countP q :=
  length_filter_enumFrom q l 0

theorem assembleUnits_length {U O : Type} (opers : List O) (units : List U) :
    (assembleUnits opers units).length = opers.length * units.length := by
  induction opers with
  | nil => simp [assembleUnits]
  | cons o os ih =>
      simp only [assembleUnits, List.flatMap_cons, List.length_append, List.length_map,
        List.length_cons] at ih ⊢
      rw [ih, Nat.succ_mul, Nat.add_comm]

theorem assembleUnits_mem {U O : Type} (opers : List O) (units : List U) (u : U) (o : O) :
    (u, o) ∈ assembleUnits opers units ↔ o ∈ opers ∧ u ∈ units := by
  simp only [assembleUnits, List.mem_flatMap, List.mem_map, Prod.mk.injEq]
  constructor
  · rintro ⟨a, ha, b, hb, hbu, hao⟩
    exact ⟨hao ▸ ha, hbu ▸ hb⟩
  · rintro ⟨ho, hu⟩
    exact ⟨o, ho, u, hu, rfl, rfl⟩

theorem patchModel_units {U OpL C A : Type} (m : Model U OpL C A) (label : String) :
    (patchModel m label).units = m.units := rfl

theorem resolvedAssemblies_of_cached {U O M OpL C A : Type}
    (gm : OpL → M) (pv : List Generator → M → List (OperatorGroup O))
    (t : Trajectory U O OpL C A) (d : MmcifData OpL)
    (c : List (ModelsAssembly O)) (hc : t.modelsAssembliesCache = some c) :
    resolvedAssemblies gm pv t d = c := by
  simp [resolvedAssemblies, hc]

theorem buildModelsAssembly_eq_mmcif {U O M OpL C A : Type}
    (gm : OpL → M) (pv : List Generator → M → List (OperatorGroup O))
    (t : Trajectory U O OpL C A) (asmName : String) (mi : Nat) (d : MmcifData OpL)
    (hd : (t.getFrameAtIndex mi).sourceData = .mmcif d) :
    buildModelsAssembly gm pv t asmName mi =
      (match (resolvedAssemblies gm pv t d).find?
          (fun ma => ma.assembly.id.toLowerCase == asmName) with
       | none => (.error (.assemblyNotFound asmName),
           { t with modelsAssembliesCache := some (resolvedAssemblies gm pv t d) })
       | some ma =>
          match ma.assembly.operatorGroups[mi]? with
          | none => (.error .typeError,
              { t with modelsAssembliesCache := some (resolvedAssemblies gm pv t d) })
          | some g =>
              (.ok (some { units := assembleUnits g.operators (t.getFrameAtIndex mi).units }),
               { t with modelsAssembliesCache := some (resolvedAssemblies gm pv t d) })) := by
  simp only [buildModelsAssembly, hd, StructureOfModel, patchModel]

theorem buildModelsAssembly_preserves_cache {U O M OpL C A : Type}
    (gm : OpL → M) (pv : List Generator → M → List (OperatorGroup O))
    (t : Trajectory U O OpL C A) (asmName : String) (mi : Nat)
    (c : List (ModelsAssembly O)) (hc : t.modelsAssembliesCache = some c) :
    (buildModelsAssembly gm pv t asmName mi).snd.modelsAssembliesCache = some c := by
  cases hd : (t.getFrameAtIndex mi).sourceData with
  | other kind =>
      simp only [buildModelsAssembly, hd]
      exact hc
  | mmcif d =>
      rw [buildModelsAssembly_eq_mmcif gm pv t asmName mi d hd]
      rw [resolvedAssemblies_of_cached gm pv t d c hc]
      cases hf : c.find? (fun ma => ma.assembly.id.toLowerCase == asmName) with
      | none => simp
      | some ma =>
          cases hg : ma.assembly.operatorGroups[mi]? with
          | none => simp [hf, hg]
          | some g => simp [hf, hg]

theorem build_fst_of_find?_none {U O M OpL C A : Type}
    (gm : OpL → M) (pv : List Generator → M → List (OperatorGroup O))
    (t : Trajectory U O OpL C A) (asmName : String) (mi : Nat) (d : MmcifData OpL)
    (hd : (t.getFrameAtIndex mi).sourceData = .mmcif d)
    (hf : (resolvedAssemblies gm pv t d).find?
        (fun ma => ma.assembly.id.toLowerCase == asmName) = none) :
    (buildModelsAssembly gm pv t asmName mi).fst
      = .error (.assemblyNotFound asmName) := by
  rw [buildModelsAssembly_eq_mmcif gm pv t asmName mi d hd]
  simp [hf]

theorem build_fst_of_find?_some {U O M OpL C A : Type}
    (gm : OpL → M) (pv : List Generator → M → List (OperatorGroup O))
    (t : Trajectory U O OpL C A) (asmName : String) (mi : Nat) (d : MmcifData OpL)
    (ma : ModelsAssembly O)
    (hd : (t.getFrameAtIndex mi).sourceData = .mmcif d)
    (hf : (resolvedAssemblies gm pv t d).find?
        (fun x => x.assembly.id.toLowerCase == asmName) = some ma) :
    (buildModelsAssembly gm pv t asmName mi).fst
      = match ma.assembly.operatorGroups[mi]? with
        | none => .error .typeError
        | some g => .ok (some
            { units := assembleUnits g.operators (t.getFrameAtIndex mi).units }) := by
  rw [buildModelsAssembly_eq_mmcif gm pv t asmName mi d hd]
  cases hg : ma.assembly.operatorGroups[mi]? with
  | none => simp [hf, hg]
  | some g => simp [hf, hg]

theorem build_notFound_iff_aux {U O M OpL C A : Type}
    (gm : OpL → M) (pv : List Generator → M → List (OperatorGroup O))
    (t : Trajectory U O OpL C A) (asmName : String) (mi : Nat) (d : MmcifData OpL)
    (hd : (t.getFrameAtIndex mi).sourceData = .mmcif d) :
    ((buildModelsAssembly gm pv t asmName mi).fst
        = .error (.assemblyNotFound asmName))
      ↔ (∀ ma ∈ resolvedAssemblies gm pv t d, ma.assembly.id.toLowerCase ≠ asmName) := by
  cases hf : (resolvedAssemblies gm pv t d).find?
      (fun ma => ma.assembly.id.toLowerCase == asmName) with
  | none =>
      constructor
      · intro _ ma hma
        have := List.find?_eq_none.mp hf ma hma
        simpa using this
      · intro _
        exact build_fst_of_find?_none gm pv t asmName mi d hd hf
  | some ma =>
      constructor
      · intro hcon
        rw [build_fst_of_find?_some gm pv t asmName mi d ma hd hf] at hcon
        cases hg : ma.assembly.operatorGroups[mi]? with
        | none => rw [hg] at hcon; exact absurd hcon (by simp)
        | some g => rw [hg] at hcon; exact absurd hcon (by simp)
      · intro hall
        exfalso
        have hmem := List.mem_of_find?_eq_some hf
        have hp := List.find?_some hf
        exact hall ma hmem (by simpa using hp)

theorem build_snd_cache_of_mmcif {U O M OpL C A : Type}
    (gm : OpL → M) (pv : List Generator → M → List (OperatorGroup O))
    (t : Trajectory U O OpL C A) (asmName : String) (mi : Nat) (d : MmcifData OpL)
    (hd : (t.getFrameAtIndex mi).sourceData = .mmcif d) :
    (buildModelsAssembly gm pv t asmName mi).snd.modelsAssembliesCache
      = some (resolvedAssemblies gm pv t d) := by
  rw [buildModelsAssembly_eq_mmcif gm pv t asmName mi d hd]
  cases hf : (resolvedAssemblies gm pv t d).find?
      (fun ma => ma.assembly.id.toLowerCase == asmName) with
  | none => simp
  | some ma =>
      cases hg : ma.assembly.operatorGroups[mi]? with
      | none => simp [hg]
      | some g => simp [hg]

/-! ## Claim theorems -/

/-- Claim C7: for every input where the assembly table has zero rows,
`createModelsAssemblies` returns the empty sequence (and, being total here as
in the source, raises no error). -/
theorem createModelsAssemblies_empty_table {O M OpL : Type}
    (gm : OpL → M) (pv : List Generator → M → List (OperatorGroup O))
    (genTab : List StructAssemblyGenRow) (operList : OpL) (modelNum : Nat → Int) :
    createModelsAssemblies gm pv [] genTab operList modelNum = [] := rfl

/-- Claim C3, counterexample: the assembly table has one row (id `"1"`) and the
generator table is empty, so assembly `"1"` has zero generator rows; the claim
says it must be omitted, but `createModelsAssemblies` still returns it (with
empty `modelNums`). -/
theorem createModelsAssemblies_keeps_generatorless_assembly :
    (createModelsAssemblies exGetMatrices exProvider
        [{ id := "1", details := "d" }] [] () (fun _ => 0)).map
        (fun ma => (ma.assembly.id, ma.modelNums))
      = [("1", [])] := by
  rfl

/-- Claim C3 (amended): `createModelsAssemblies` returns one `ModelsAssembly`
per assembly-table row, in row order — the i-th result carries the i-th row's
id — and assemblies with zero generator rows are included, not omitted. -/
theorem createModelsAssemblies_one_per_row {O M OpL : Type}
    (gm : OpL → M) (pv : List Generator → M → List (OperatorGroup O))
    (assemblyTab : List StructAssemblyRow) (genTab : List StructAssemblyGenRow)
    (operList : OpL) (modelNum : Nat → Int) :
    (createModelsAssemblies gm pv assemblyTab genTab operList modelNum).map
        (fun ma => ma.assembly.id)
      = assemblyTab.map (fun r => r.id) := by
  cases assemblyTab with
  | nil => rfl
  | cons r rs =>
      show (((List.range (r :: rs).length).map
          (fun i => createModelsAssembly pv (r :: rs) genTab i (gm operList) modelNum)).map
          (fun ma => ma.assembly.id)) = _
      rw [List.map_map]
      calc (List.range (r :: rs).length).map
            ((fun ma => ma.assembly.id) ∘
              fun i => createModelsAssembly pv (r :: rs) genTab i (gm operList) modelNum)
          = (List.range (r :: rs).length).map
              ((fun x => x.id) ∘ fun i => (r :: rs).getD i default) := rfl
        _ = ((List.range (r :: rs).length).map
              (fun i => (r :: rs).getD i default)).map (fun x => x.id) := by
            rw [List.map_map]
        _ = (r :: rs).map (fun x => x.id) := by rw [range_map_getD]

/-- Claim C6: for every assembly-table index, the constructed `ModelsAssembly`
has `modelNums` listing exactly the `PDB_model_num` values of the generator rows
whose `assembly_id` equals the assembly's id, in generator-table row order, so
its length is the number of contributing generator rows. -/
theorem createModelsAssembly_modelNums_spec {O M : Type}
    (pv : List Generator → M → List (OperatorGroup O))
    (assemblyTab : List StructAssemblyRow) (genTab : List StructAssemblyGenRow)
    (index : Nat) (matrices : M) (modelNum : Nat → Int) :
    ((createModelsAssembly pv assemblyTab genTab index matrices modelNum).modelNums
        = (genTab.enum.filter
            (fun p => p.2.assembly_id == (assemblyTab.getD index default).id)).map
            (fun p => modelNum p.1))
    ∧ ((createModelsAssembly pv assemblyTab genTab index matrices modelNum).modelNums.length
        = genTab.countP
            (fun row => row.assembly_id == (assemblyTab.getD index default).id)) := by
  have h := foldl_append_pair
    (fun p : Nat × StructAssemblyGenRow =>
      p.2.assembly_id == (assemblyTab.getD index default).id)
    (fun p => ({ assemblyId := (assemblyTab.getD index default).id,
                 expression := p.2.oper_expression,
                 asymIds := p.2.asym_id_list } : Generator))
    (fun p => modelNum p.1) genTab.enum [] []
  have h2 : (createModelsAssembly pv assemblyTab genTab index matrices modelNum).modelNums
      = (genTab.enum.filter
          (fun p => p.2.assembly_id == (assemblyTab.getD index default).id)).map
          (fun p => modelNum p.1) := by
    show (genTab.enum.foldl _ ([], [])).2 = _
    rw [h]
    simp
  refine ⟨h2, ?_⟩
  rw [h2, List.length_map]
  exact length_filter_enum
    (fun row => row.assembly_id == (assemblyTab.getD index default).id) genTab

theorem foldl_update_preserves {α β : Type} [DecidableEq α] (v : β) (idx : String → α) :
    ∀ (ids : List String) (d : α → β) (j : α), (∀ eid ∈ ids, idx eid ≠ j) →
      ids.foldl (fun acc eid => Function.update acc (idx eid) v) d j = d j := by
  intro ids
  induction ids with
  | nil => intro d j _; rfl
  | cons a as ih =>
      intro d j h
      simp only [List.foldl_cons]
      rw [ih _ j (fun e he => h e (List.mem_cons_of_mem a he))]
      exact Function.update_noteq (fun hj => h a (List.mem_cons_self a as) hj.symm) v d

theorem foldl_update_writes {α β : Type} [DecidableEq α] (v : β) (idx : String → α) :
    ∀ (ids : List String) (d : α → β) (j : α), (∃ eid ∈ ids, idx eid = j) →
      ids.foldl (fun acc eid => Function.update acc (idx eid) v) d j = v := by
  intro ids
  induction ids with
  | nil => rintro d j ⟨e, he, _⟩; cases he
  | cons a as ih =>
      rintro d j ⟨e, he, hje⟩
      simp only [List.foldl_cons]
      by_cases hmem : ∃ x ∈ as, idx x = j
      · exact ih _ j hmem
      · have hja : idx a = j := by
          rcases List.mem_cons.mp he with h1 | h2
          · rw [← h1]; exact hje
          · exact absurd ⟨e, h2, hje⟩ hmem
        rw [foldl_update_preserves v idx as _ j
            (fun x hx hcon => hmem ⟨x, hx, hcon⟩)]
        rw [hja]
        exact Function.update_same j v d

/-- Claim C10: the entity-description patch sets the model's label and rewrites
`pdbx_description` exactly at the entity indices referenced by the model's
chains (each such entry becomes the one-element array of the label); every
other `pdbx_description` entry, every other column of the entity table, and all
other model data (atomic hierarchy, units, source tables) are unchanged. -/
theorem patchModel_frame_conditions {U OpL C A : Type}
    (m : Model U OpL C A) (label : String) :
    ((patchModel m label).label = label)
    ∧ ((patchModel m label).units = m.units)
    ∧ ((patchModel m label).chainEntityIds = m.chainEntityIds)
    ∧ ((patchModel m label).hierarchyRest = m.hierarchyRest)
    ∧ ((patchModel m label).sourceData = m.sourceData)
    ∧ ((patchModel m label).entities.getEntityIndex = m.entities.getEntityIndex)
    ∧ ((patchModel m label).entities.data.other = m.entities.data.other)
    ∧ (∀ j : Int, (∀ eid ∈ m.chainEntityIds, m.entities.getEntityIndex eid ≠ j) →
        (patchModel m label).entities.data.pdbx_description j
          = m.entities.data.pdbx_description j)
    ∧ (∀ eid ∈ m.chainEntityIds,
        (patchModel m label).entities.data.pdbx_description
            (m.entities.getEntityIndex eid)
          = [label]) := by
  refine ⟨rfl, rfl, rfl, rfl, rfl, rfl, rfl, ?_, ?_⟩
  · intro j hj
    exact foldl_update_preserves [label] m.entities.getEntityIndex
      m.chainEntityIds m.entities.data.pdbx_description j hj
  · intro eid he
    exact foldl_update_writes [label] m.entities.getEntityIndex
      m.chainEntityIds m.entities.data.pdbx_description
      (m.entities.getEntityIndex eid) ⟨eid, he, rfl⟩

/-- Witness for C10: on the concrete model, the referenced entity index 0 gets
the new label and the untouched index 5 keeps its old value. -/
theorem patchModel_frame_conditions_witness :
    ((patchModel exModel "X").entities.data.pdbx_description 0 = ["X"])
    ∧ ((patchModel exModel "X").entities.data.pdbx_description 5 = ["old"]) := by
  have h := patchModel_frame_conditions exModel "X"
  constructor
  · have hw := h.2.2.2.2.2.2.2.2 "E1" (by simp [exModel])
    have h0 : exModel.entities.getEntityIndex "E1" = (0 : Int) := by decide
    rw [h0] at hw
    exact hw
  · have hp := h.2.2.2.2.2.2.2.1 5 (by decide)
    rw [hp]
    rfl

/-- Claim C2, counterexample: the cached assemblies hold exactly one entry, with
id `"A"`; requesting `"A"` matches that entry case-insensitively (both sides
lowercase to `"a"`), yet the build throws `AssemblyNotFound`, because the code
lowercases only the stored id and compares it with the requested id verbatim. -/
theorem buildModelsAssembly_not_case_insensitive :
    (resolvedAssemblies exGetMatrices exProvider
        (exTraj (some [exAsm "A" [{ operators := [5] }]])) exMmcifData
      = [exAsm "A" [{ operators := [5] }]])
    ∧ ((exAsm "A" [{ operators := [5] }]).assembly.id.toLowerCase = "A".toLowerCase)
    ∧ ((buildModelsAssembly exGetMatrices exProvider
        (exTraj (some [exAsm "A" [{ operators := [5] }]])) "A" 0).fst
      = .error (.assemblyNotFound "A")) := by
  refine ⟨rfl, rfl, ?_⟩
  rfl

/-- Claim C2 (amended): for an mmCIF frame the build selects, via first match,
the entry whose LOWERCASED id equals the requested id verbatim (the requested id
itself is never lowercased), and it throws `AssemblyNotFound` — never an
empty-but-successful result — if and only if no entry's lowercased id equals
the requested id. -/
theorem buildModelsAssembly_selection_spec {U O M OpL C A : Type}
    (gm : OpL → M) (pv : List Generator → M → List (OperatorGroup O))
    (t : Trajectory U O OpL C A) (asmName : String) (mi : Nat) (d : MmcifData OpL)
    (hd : (t.getFrameAtIndex mi).sourceData = .mmcif d) :
    (((buildModelsAssembly gm pv t asmName mi).fst
        = .error (.assemblyNotFound asmName))
      ↔ (∀ ma ∈ resolvedAssemblies gm pv t d, ma.assembly.id.toLowerCase ≠ asmName))
    ∧ (∀ ma : ModelsAssembly O,
        (resolvedAssemblies gm pv t d).find?
            (fun x => x.assembly.id.toLowerCase == asmName) = some ma →
        (buildModelsAssembly gm pv t asmName mi).fst
          = match ma.assembly.operatorGroups[mi]? with
            | none => .error .typeError
            | some g => .ok (some
                { units := assembleUnits g.operators (t.getFrameAtIndex mi).units })) := by
  refine ⟨build_notFound_iff_aux gm pv t asmName mi d hd, ?_⟩
  intro ma hf
  exact build_fst_of_find?_some gm pv t asmName mi d ma hd hf

/-- Witness for the amended C2: with only assembly `"2"` cached, requesting
`"1"` throws `AssemblyNotFound`. -/
theorem buildModelsAssembly_selection_spec_witness :
    (buildModelsAssembly exGetMatrices exProvider
        (exTraj (some [exAsm "2" [{ operators := [5] }]])) "1" 0).fst
      = .error (.assemblyNotFound "1") :=
  ((buildModelsAssembly_selection_spec exGetMatrices exProvider
      (exTraj (some [exAsm "2" [{ operators := [5] }]])) "1" 0 exMmcifData rfl).1).mpr
    (by decide)

/-- Claim C4, counterexample: assembly `"1"` is matched but its
`operatorGroups` has no entry at model index 0; the claim expects an empty,
error-free result, but the build raises an error (the JS `TypeError` from
reading `.operators` of `undefined`). -/
theorem buildModelsAssembly_missing_group_cx :
    (buildModelsAssembly exGetMatrices exProvider
        (exTraj (some [exAsm "1" []])) "1" 0).fst
      = .error .typeError := by
  rfl

/-- Claim C4 (amended): when the matched assembly's per-model operator groups
have no entry at the model index, the build does not return an empty result —
it fails with the error modelling the JS `TypeError` raised by reading
`.operators` of `undefined`. -/
theorem buildModelsAssembly_missing_group_errors {U O M OpL C A : Type}
    (gm : OpL → M) (pv : List Generator → M → List (OperatorGroup O))
    (t : Trajectory U O OpL C A) (asmName : String) (mi : Nat) (d : MmcifData OpL)
    (ma : ModelsAssembly O)
    (hd : (t.getFrameAtIndex mi).sourceData = .mmcif d)
    (hf : (resolvedAssemblies gm pv t d).find?
        (fun x => x.assembly.id.toLowerCase == asmName) = some ma)
    (hg : ma.assembly.operatorGroups[mi]? = none) :
    (buildModelsAssembly gm pv t asmName mi).fst = .error .typeError := by
  rw [build_fst_of_find?_some gm pv t asmName mi d ma hd hf, hg]

/-- Witness for the amended C4: assembly `"3"` is matched at request `"3"` but
has an operator group only at index 0; requesting model index 1 fails with the
`TypeError` error. -/
theorem buildModelsAssembly_missing_group_errors_witness :
    (buildModelsAssembly exGetMatrices exProvider
        (exTraj (some [exAsm "3" [{ operators := [5] }]])) "3" 1).fst
      = .error .typeError :=
  buildModelsAssembly_missing_group_errors exGetMatrices exProvider
    (exTraj (some [exAsm "3" [{ operators := [5] }]])) "3" 1 exMmcifData
    (exAsm "3" [{ operators := [5] }]) rfl (by decide) rfl

/-- Claim C1: when an mmCIF frame resolves, the matched assembly's operator
group at the model index has `k = g.operators.length` operator tuples, and the
base structure built from the resolved model has
`u = (t.getFrameAtIndex mi).units.length` units, the build returns the
structure of all duplicated unit instances — exactly `k × u` units, one per
(original unit × operator in the selected group). -/
theorem buildModelsAssembly_unit_count {U O M OpL C A : Type}
    (gm : OpL → M) (pv : List Generator → M → List (OperatorGroup O))
    (t : Trajectory U O OpL C A) (asmName : String) (mi : Nat) (d : MmcifData OpL)
    (ma : ModelsAssembly O) (g : OperatorGroup O)
    (hd : (t.getFrameAtIndex mi).sourceData = .mmcif d)
    (hf : (resolvedAssemblies gm pv t d).find?
        (fun x => x.assembly.id.toLowerCase == asmName) = some ma)
    (hg : ma.assembly.operatorGroups[mi]? = some g) :
    ((buildModelsAssembly gm pv t asmName mi).fst
        = .ok (some { units := assembleUnits g.operators (t.getFrameAtIndex mi).units }))
    ∧ ((assembleUnits g.operators (t.getFrameAtIndex mi).units).length
        = g.operators.length * (t.getFrameAtIndex mi).units.length)
    ∧ (∀ (u : U) (o : O),
        (u, o) ∈ assembleUnits g.operators (t.getFrameAtIndex mi).units
          ↔ o ∈ g.operators ∧ u ∈ (t.getFrameAtIndex mi).units) := by
  refine ⟨?_, assembleUnits_length _ _, fun u o => assembleUnits_mem _ _ u o⟩
  rw [build_fst_of_find?_some gm pv t asmName mi d ma hd hf, hg]

/-- Witness for C1: a group of 2 operators over a base of 3 units yields the
6 duplicated unit instances, and 6 = 2 × 3. -/
theorem buildModelsAssembly_unit_count_witness :
    ((buildModelsAssembly exGetMatrices exProvider
        (exTraj (some [exAsm "1" [{ operators := [5, 6] }]])) "1" 0).fst
      = .ok (some { units := [(100, 5), (200, 5), (300, 5), (100, 6), (200, 6), (300, 6)] }))
    ∧ (6 = 2 * 3) := by
  have h := buildModelsAssembly_unit_count exGetMatrices exProvider
    (exTraj (some [exAsm "1" [{ operators := [5, 6] }]])) "1" 0 exMmcifData
    (exAsm "1" [{ operators := [5, 6] }]) { operators := [5, 6] }
    rfl (by decide) rfl
  refine ⟨?_, rfl⟩
  rw [h.1]
  rfl

/-- Claim C5: on a trajectory with an empty cache, the first build constructs
the full assemblies list from the resolved frame's static tables and stores it
on the trajectory; afterwards, the cache step returns the stored list unchanged
for any model index, tables and providers (so nothing is re-run), and any
subsequent build leaves the stored cache untouched. -/
theorem buildModelsAssembly_cache_spec {U O M OpL C A : Type}
    (gm : OpL → M) (pv : List Generator → M → List (OperatorGroup O))
    (t : Trajectory U O OpL C A) (asmName : String) (mi : Nat) (d : MmcifData OpL)
    (hnone : t.modelsAssembliesCache = none)
    (hd : (t.getFrameAtIndex mi).sourceData = .mmcif d) :
    ((buildModelsAssembly gm pv t asmName mi).snd.modelsAssembliesCache
        = some (createModelsAssemblies gm pv d.pdbx_struct_assembly
            d.pdbx_struct_assembly_gen d.pdbx_struct_oper_list d.PDB_model_num))
    ∧ (∀ (M2 : Type) (gm2 : OpL → M2)
        (pv2 : List Generator → M2 → List (OperatorGroup O)) (d2 : MmcifData OpL),
        resolvedAssemblies gm2 pv2 (buildModelsAssembly gm pv t asmName mi).snd d2
          = createModelsAssemblies gm pv d.pdbx_struct_assembly
              d.pdbx_struct_assembly_gen d.pdbx_struct_oper_list d.PDB_model_num)
    ∧ (∀ (asmName2 : String) (mi2 : Nat),
        (buildModelsAssembly gm pv
            (buildModelsAssembly gm pv t asmName mi).snd asmName2 mi2).snd.modelsAssembliesCache
          = (buildModelsAssembly gm pv t asmName mi).snd.modelsAssembliesCache) := by
  have hres : resolvedAssemblies gm pv t d
      = createModelsAssemblies gm pv d.pdbx_struct_assembly
          d.pdbx_struct_assembly_gen d.pdbx_struct_oper_list d.PDB_model_num := by
    simp [resolvedAssemblies, hnone]
  have hsnd := build_snd_cache_of_mmcif gm pv t asmName mi d hd
  rw [hres] at hsnd
  refine ⟨hsnd, ?_, ?_⟩
  · intro M2 gm2 pv2 d2
    exact resolvedAssemblies_of_cached gm2 pv2 _ d2 _ hsnd
  · intro asmName2 mi2
    rw [buildModelsAssembly_preserves_cache gm pv _ asmName2 mi2 _ hsnd, hsnd]

/-- Witness for C5: the first build on the concrete cache-less trajectory
stores the list built from the frame's tables. -/
theorem buildModelsAssembly_cache_spec_witness :
    (buildModelsAssembly exGetMatrices exProvider (exTraj none) "1" 0).snd.modelsAssembliesCache
      = some (createModelsAssemblies exGetMatrices exProvider
          exMmcifData.pdbx_struct_assembly exMmcifData.pdbx_struct_assembly_gen
          exMmcifData.pdbx_struct_oper_list exMmcifData.PDB_model_num) :=
  (buildModelsAssembly_cache_spec exGetMatrices exProvider
    (exTraj none) "1" 0 exMmcifData rfl rfl).1

/-- Claim C8: when the resolved frame's source data is not in the mmCIF format,
the build yields "no result" (`ok none`, trajectory untouched) rather than an
error, and the state transform turns it into the null state object. -/
theorem buildModelsAssembly_non_mmcif {U O M OpL C A : Type}
    (gm : OpL → M) (pv : List Generator → M → List (OperatorGroup O))
    (t : Trajectory U O OpL C A) (asmName : String) (mi : Nat) (kind : String)
    (hd : (t.getFrameAtIndex mi).sourceData = .other kind) :
    (buildModelsAssembly gm pv t asmName mi = (.ok none, t))
    ∧ (StructureFromPetworld_apply gm pv t mi = (.ok .nullObject, t)) := by
  have h1 : buildModelsAssembly gm pv t asmName mi = (.ok none, t) := by
    simp only [buildModelsAssembly, hd]
  have h2 : buildModelsAssembly gm pv t "1" mi = (.ok none, t) := by
    simp only [buildModelsAssembly, hd]
  refine ⟨h1, ?_⟩
  simp only [StructureFromPetworld_apply, h2]

/-- Witness for C8: the concrete trajectory whose frame is tagged `"pdb"`
yields the null object without an error. -/
theorem buildModelsAssembly_non_mmcif_witness :
    StructureFromPetworld_apply exGetMatrices exProvider exTrajOther 0
      = (.ok .nullObject, exTrajOther) :=
  (buildModelsAssembly_non_mmcif exGetMatrices exProvider exTrajOther "1" 0 "pdb" rfl).2

/-- Claim C9: the public `StructureFromPetworld` transform always requests
assembly id `"1"`: whatever other assemblies the tables define, if no entry's
lowercased id is `"1"` the transform fails with `AssemblyNotFound "1"` — no
other assembly id is ever built through it. -/
theorem apply_requests_only_assembly_one {U O M OpL C A : Type}
    (gm : OpL → M) (pv : List Generator → M → List (OperatorGroup O))
    (t : Trajectory U O OpL C A) (mi : Nat) (d : MmcifData OpL)
    (hd : (t.getFrameAtIndex mi).sourceData = .mmcif d)
    (hno : ∀ ma ∈ resolvedAssemblies gm pv t d, ma.assembly.id.toLowerCase ≠ "1") :
    (StructureFromPetworld_apply gm pv t mi).fst = .error (.assemblyNotFound "1") := by
  have hfst : (buildModelsAssembly gm pv t "1" mi).fst
      = .error (.assemblyNotFound "1") :=
    (build_notFound_iff_aux gm pv t "1" mi d hd).mpr hno
  unfold StructureFromPetworld_apply
  rcases hb : buildModelsAssembly gm pv t "1" mi with ⟨r, t2⟩
  rw [hb] at hfst
  simp only at hfst
  rw [hfst]

/-- Witness for C9: with only assembly `"2"` defined in the cache, the public
transform fails with `AssemblyNotFound "1"`. -/
theorem apply_requests_only_assembly_one_witness :
    (StructureFromPetworld_apply exGetMatrices exProvider
        (exTraj (some [exAsm "2" [{ operators := [5] }]])) 0).fst
      = .error (.assemblyNotFound "1") :=
  apply_requests_only_assembly_one exGetMatrices exProvider
    (exTraj (some [exAsm "2" [{ operators := [5] }]])) 0 exMmcifData rfl (by decide)
